import Mathlib

/-!
Shallow embedding of the quote-store core of `astrbot_plugin_quote_core`
(`src/dao.py` with the record model of `src/model.py`, and the id
construction of `src/main.py`).  Python dictionaries holding JSON-scalar
values are embedded as association lists over a universal scalar type
`Prim`; the store state (`QuoteStore._cache` and `QuoteStore._index`) is a
list of such record dictionaries together with a finite set of dedup-key
strings.  Fallible Python code (statements that can raise) is embedded as
`Option`-returning functions, with `none` standing for a raised exception.
-/

/-- A JSON-scalar Python value as it occurs in a stored record:
`None`, a bool, an int, or a str. -/
inductive Prim where
  | pNull : Prim
  | pBool : Bool → Prim
  | pInt : Int → Prim
  | pStr : String → Prim
deriving DecidableEq, Repr

/-- Python `s.strip()` on a str: drop leading and trailing whitespace. -/
def py_trim (s : String) : String :=
  ⟨List.reverse (List.dropWhile Char.isWhitespace
    (List.reverse (List.dropWhile Char.isWhitespace s.data)))⟩

/-- Python `str(v)` on a scalar value. -/
def pyStr : Prim → String
  | Prim.pNull => "None"
  | Prim.pBool true => "True"
  | Prim.pBool false => "False"
  | Prim.pInt n => toString n
  | Prim.pStr s => s

/-- Python `v.strip()`: succeeds (trimming whitespace) only when `v` is a
str; on any other value the attribute access raises. -/
def pyStrip : Prim → Option String
  | Prim.pStr s => some (py_trim s)
  | _ => none

/-- A Python dict with string keys and scalar values (one stored record). -/
abbrev RecordDict := List (String × Prim)

/-- Python `d.get(k, default)`. -/
def dictGetD (d : RecordDict) (k : String) (v : Prim) : Prim :=
  (List.lookup k d).getD v

/-- The `Quote` dataclass of `src/model.py` (field order as declared).
Field values are kept as raw scalars, as a Python dataclass does.
`ai_reason` is the one field with a default (`None`). -/
structure Quote where
  id : Prim
  qq : Prim
  name : Prim
  text : Prim
  created_by : Prim
  created_at : Prim
  group : Prim
  ai_reason : Prim := Prim.pNull
deriving DecidableEq, Repr

/-- `dataclasses.asdict(quote)`: the record dictionary of a `Quote`. -/
def asdict (q : Quote) : RecordDict :=
  [("id", q.id), ("qq", q.qq), ("name", q.name), ("text", q.text),
   ("created_by", q.created_by), ("created_at", q.created_at),
   ("group", q.group), ("ai_reason", q.ai_reason)]

/-- The declared field names of the `Quote` dataclass
(`{f.name for f in dataclasses.fields(Quote)}`). -/
def quote_field_names : List String :=
  ["id", "qq", "name", "text", "created_by", "created_at", "group", "ai_reason"]

/-- `QuoteStore._safe_to_quote`: keep only recognized keys, then build
`Quote(**clean_data)`.  Binding is by field name, so this is a lookup of
each declared field; a missing required field makes the constructor call
raise `TypeError` (`none`), while a missing `ai_reason` falls back to the
dataclass default `None`. -/
def safe_to_quote (d : RecordDict) : Option Quote := do
  let i ← List.lookup "id" d
  let q ← List.lookup "qq" d
  let n ← List.lookup "name" d
  let t ← List.lookup "text" d
  let cb ← List.lookup "created_by" d
  let ca ← List.lookup "created_at" d
  let g ← List.lookup "group" d
  pure { id := i, qq := q, name := n, text := t, created_by := cb,
         created_at := ca, group := g,
         ai_reason := (List.lookup "ai_reason" d).getD Prim.pNull }

/-- In-memory state of a `QuoteStore`: the raw record cache and the
dedup index (a Python `set` of key strings). -/
structure Store where
  cache : List RecordDict
  index : Finset String
deriving DecidableEq

/-- A store with no records and an empty index. -/
def empty_store : Store := { cache := [], index := ∅ }

/-- `QuoteStore._rebuild_index` on a list of record dictionaries:
`gid = str(q.get("group", ""))`, `txt = str(q.get("text", "")).strip()`,
and the key `f"{gid}_{txt}"` is added only when both are non-empty. -/
def rebuild_step (acc : Finset String) (r : RecordDict) : Finset String :=
  let gid := pyStr (dictGetD r "group" (Prim.pStr ""))
  let txt := py_trim (pyStr (dictGetD r "text" (Prim.pStr "")))
  if gid ≠ "" ∧ txt ≠ "" then insert (gid ++ "_" ++ txt) acc else acc

/-- `QuoteStore._rebuild_index`: clear the index, then fold
`rebuild_step` over the cached records. -/
def rebuild_index (rs : List RecordDict) : Finset String :=
  List.foldl rebuild_step ∅ rs

/-- The dedup key a record would contribute, computed the way
`_rebuild_index` (and `delete_quote`) compute it. -/
def record_key (r : RecordDict) : String :=
  pyStr (dictGetD r "group" (Prim.pStr "")) ++ "_" ++
    py_trim (pyStr (dictGetD r "text" (Prim.pStr "")))

/-- `QuoteStore.check_exists`: membership of `f"{group_id}_{text.strip()}"`
in the dedup index. -/
def check_exists (st : Store) (group_id text : String) : Bool :=
  decide ((group_id ++ "_" ++ py_trim text) ∈ st.index)

/-- The in-memory effect of `QuoteStore.add_quote`: append
`dataclasses.asdict(quote)` to the cache and add the key
`f"{quote.group}_{quote.text.strip()}"` to the index, unconditionally.
`quote.text.strip()` raises unless `text` is a str. -/
def add_quote_mem (q : Quote) (st : Store) : Option Store :=
  (pyStrip q.text).map fun t =>
    { cache := st.cache ++ [asdict q],
      index := insert (pyStr q.group ++ "_" ++ t) st.index }

/-- Run a sequence of in-memory adds (a no-op stands in for the raising
case, which the theorems below exclude by hypothesis). -/
def fold_adds (qs : List Quote) (st : Store) : Store :=
  List.foldl (fun s q => (add_quote_mem q s).getD s) st qs

/-- One element of the value stored under `"quotes"` in the backing file:
either a JSON object (a record dictionary) or a non-object value, on which
`q.get(...)` raises `AttributeError`. -/
inductive Item where
  | obj : RecordDict → Item
  | scalar : Prim → Item
deriving DecidableEq, Repr

/-- The value found under the `"quotes"` key of the backing file (or
substituted by `_load`): a JSON array, a string, an object (of which only
the keys matter, since iterating a dict yields its keys), or a scalar. -/
inductive QuotesVal where
  | arr : List Item → QuotesVal
  | strv : String → QuotesVal
  | objv : List String → QuotesVal
  | scalar : Prim → QuotesVal
deriving DecidableEq, Repr

/-- The top-level JSON value of the backing file: an object (an association
list whose `"quotes"` binding is the one the code reads) or a non-object,
on which `data.get(...)` raises `AttributeError` inside the `try`. -/
inductive TopVal where
  | objT : List (String × QuotesVal) → TopVal
  | nonObj : TopVal
deriving DecidableEq, Repr

/-- The state of the backing file `quotes.json`: absent, present but not
parsable as JSON, or holding a JSON value. -/
inductive FileContent where
  | missing : FileContent
  | garbage : FileContent
  | json : TopVal → FileContent
deriving DecidableEq, Repr

/-- `QuoteStore._load`: `[]` when the file is missing; inside the
`try/except`, a parse failure or an `AttributeError` from calling `.get`
on a non-object also yields `[]`; otherwise `data.get("quotes", [])`. -/
def py_load (f : FileContent) : QuotesVal :=
  match f with
  | FileContent.missing => QuotesVal.arr []
  | FileContent.garbage => QuotesVal.arr []
  | FileContent.json TopVal.nonObj => QuotesVal.arr []
  | FileContent.json (TopVal.objT kvs) =>
      (List.lookup "quotes" kvs).getD (QuotesVal.arr [])

/-- Python iteration (`for q in self._cache`) over the loaded value:
a list yields its items, a string its characters (each a str), a dict its
keys (each a str); a scalar is not iterable (`TypeError`, `none`). -/
def iter_elems : QuotesVal → Option (List Item)
  | QuotesVal.arr xs => some xs
  | QuotesVal.strv s =>
      some (s.data.map fun c => Item.scalar (Prim.pStr (String.singleton c)))
  | QuotesVal.objv keys => some (keys.map fun k => Item.scalar (Prim.pStr k))
  | QuotesVal.scalar _ => none

/-- `q.get(...)` on each iterated element: succeeds only on dicts
(`AttributeError`, i.e. `none`, on anything else). -/
def records_of_items : List Item → Option (List RecordDict)
  | [] => some []
  | Item.obj d :: rest => (records_of_items rest).map (d :: ·)
  | Item.scalar _ :: _ => none

/-- `QuoteStore.__init__` on a given backing-file state: run `_load`, then
`_rebuild_index` over the loaded value.  `none` when the rebuild loop
raises (non-iterable cache, or an element without `.get`).  When the
loaded value is an empty string or empty dict the loop body never runs and
the (empty) cache behaves as the empty list, which is how it is recorded
here. -/
def init_store (f : FileContent) : Option Store := do
  let items ← iter_elems (py_load f)
  let rs ← records_of_items items
  pure { cache := rs, index := rebuild_index rs }

/-- `json.dumps({"quotes": self._cache})` followed by a parse yields this
file content: the serialization written by `_save`. -/
def serialize_store (cache : List RecordDict) : FileContent :=
  FileContent.json (TopVal.objT [("quotes", QuotesVal.arr (cache.map Item.obj))])

/-- The on-disk state seen by the store: the contents of `quotes.json`. -/
structure Disk where
  file : FileContent
deriving DecidableEq

/-- Which fate the I/O inside one `_save` call meets: everything succeeds,
the temp-file write raises, or the atomic replace raises. -/
inductive SaveOutcome where
  | ok : SaveOutcome
  | failWrite : SaveOutcome
  | failReplace : SaveOutcome
deriving DecidableEq, Repr

/-- Result of one `_save` call: the resulting file state, whether a stray
temp file remains, and whether the call raised. -/
structure SaveResult where
  disk : Disk
  tmp_remains : Bool
  raised : Bool
deriving DecidableEq

/-- `QuoteStore._save`: serialize the whole cache, write it to a fresh
temp file in the data directory, then atomically replace the target.  On
an exception from the write or the replace, the `except` branch removes
the temp file if it still exists and re-raises; the target file keeps its
previous contents.  On success the temp file has been renamed onto the
target, so none remains. -/
def py_save (cache : List RecordDict) (disk : Disk) (o : SaveOutcome) : SaveResult :=
  match o with
  | SaveOutcome.ok =>
      { disk := { file := serialize_store cache }, tmp_remains := false, raised := false }
  | SaveOutcome.failWrite =>
      { disk := disk, tmp_remains := false, raised := true }
  | SaveOutcome.failReplace =>
      { disk := disk, tmp_remains := false, raised := true }

/-- `QuoteStore.add_quote` including persistence: mutate memory (cache
append and unconditional index insert), then `_save`.  The returned flag
records whether `_save` raised (the exception propagates: `add_quote`
does not catch it). -/
def add_quote (q : Quote) (st : Store) (disk : Disk) (o : SaveOutcome) :
    Option (Store × Disk × Bool) :=
  (add_quote_mem q st).map fun st' =>
    let r := py_save st'.cache disk o
    (st', r.disk, r.raised)

/-- The predicate `q.get("id") == qid` used by `delete_quote` (`qid` is a
str; Python `==` across types is plain value equality, so a missing or
non-str id never matches). -/
def del_pred (qid : String) (r : RecordDict) : Bool :=
  dictGetD r "id" Prim.pNull == Prim.pStr qid

/-- `QuoteStore.delete_quote`: find the first record whose `id` equals
`qid`; if none, return `False` without saving.  Otherwise drop every
record with that id from the cache, remove the victim's dedup key from the
index if present, `_save`, and return `True`.  Result:
(new store, new disk, raised, returned value). -/
def delete_quote (qid : String) (st : Store) (disk : Disk) (o : SaveOutcome) :
    Store × Disk × Bool × Bool :=
  match st.cache.find? (del_pred qid) with
  | none => (st, disk, false, false)
  | some td =>
      let cache' := st.cache.filter fun r => !(del_pred qid r)
      let key := record_key td
      let index' := if key ∈ st.index then st.index.erase key else st.index
      let r := py_save cache' disk o
      ({ cache := cache', index := index' }, r.disk, r.raised, true)

/-- A list comprehension `[self._safe_to_quote(x) for x in rs]`: converts
every record, raising (`none`) if any conversion raises. -/
def convert_all : List RecordDict → Option (List Quote)
  | [] => some []
  | r :: rest => do
      let q ← safe_to_quote r
      let l ← convert_all rest
      pure (q :: l)

/-- The filter of `get_random_batch`: keep records unless a `group_id` is
given and `str(q.get("group"))` differs from it (`q.get("group")` has no
default, so a missing key compares as `"None"`). -/
def group_pred (group_id : Option String) (r : RecordDict) : Bool :=
  match group_id with
  | none => true
  | some g => pyStr (dictGetD r "group" Prim.pNull) == g

/-- Deterministic model of `random.sample(l, k)` for `0 ≤ k ≤ l.length`:
the seed drives which remaining element is drawn next, and each drawn
element is removed before the next draw (sampling without replacement). -/
def sample_with : List Nat → List RecordDict → Nat → List RecordDict
  | _, _, 0 => []
  | _, [], _ + 1 => []
  | seed, a :: rest, k + 1 =>
      let l := a :: rest
      let j := seed.headD 0 % l.length
      l.get ⟨j, Nat.mod_lt _ (Nat.succ_pos rest.length)⟩ ::
        sample_with seed.tail (l.eraseIdx j) k

/-- `QuoteStore.get_random_batch`: filter by group, return `[]` when the
filtered set is empty; otherwise `random.sample` of size
`min(len(candidates), count)` — which raises `ValueError` (`none`) when
that size is negative — converted through `_safe_to_quote` (which may
itself raise on a malformed record). -/
def get_random_batch (group_id : Option String) (count : Int)
    (seed : List Nat) (cache : List RecordDict) : Option (List Quote) :=
  let candidates := cache.filter (group_pred group_id)
  if candidates.isEmpty then some []
  else
    let sample_size : Int := min (candidates.length : Int) count
    if sample_size < 0 then none
    else convert_all (sample_with seed candidates sample_size.toNat)

/-- The record filter of `get_user_quotes`: group (when given) and author
both compared as strings, each via `str(q.get(...))` with no default. -/
def user_pred (group_id : Option String) (qq : String) (r : RecordDict) : Bool :=
  (match group_id with
   | none => true
   | some g => pyStr (dictGetD r "group" Prim.pNull) == g) &&
  (pyStr (dictGetD r "qq" Prim.pNull) == qq)

/-- `QuoteStore.get_user_quotes`: walk the cache in order, skip records
failing either predicate, convert the rest through `_safe_to_quote`
(raising, i.e. `none`, on a malformed record).  No sorting happens. -/
def get_user_quotes (group_id : Option String) (qq : String) :
    List RecordDict → Option (List Quote)
  | [] => some []
  | r :: rest =>
      if (match group_id with
          | none => false
          | some g => pyStr (dictGetD r "group" Prim.pNull) ≠ g) then
        get_user_quotes group_id qq rest
      else if pyStr (dictGetD r "qq" Prim.pNull) ≠ qq then
        get_user_quotes group_id qq rest
      else do
        let q ← safe_to_quote r
        let l ← get_user_quotes group_id qq rest
        pure (q :: l)

/-- The quote id built by the submitting command handler in `src/main.py`:
`str(int(time()*1000)) + "_" + secrets.token_hex(2)` — the millisecond
timestamp and random token are parameters here. -/
def make_quote_id (ms : Nat) (tok : String) : String :=
  toString ms ++ "_" ++ tok

/-- Whether some cached record has exactly the queried isolation key and
(trimmed) text — what the spec says `check_exists` decides. -/
def has_matching_quote (st : Store) (g t : String) : Bool :=
  st.cache.any fun r =>
    (pyStr (dictGetD r "group" (Prim.pStr "")) == g) &&
    (py_trim (pyStr (dictGetD r "text" (Prim.pStr ""))) == py_trim t)

lemma record_key_asdict (q : Quote) :
    record_key (asdict q) = pyStr q.group ++ "_" ++ py_trim (pyStr q.text) := rfl

lemma add_quote_mem_str (q : Quote) (st : Store) (t : String)
    (h : q.text = Prim.pStr t) :
    add_quote_mem q st =
      some { cache := st.cache ++ [asdict q],
             index := insert (pyStr q.group ++ "_" ++ py_trim t) st.index } := by
  simp [add_quote_mem, pyStrip, h]

lemma fold_adds_index_eq (qs : List Quote) :
    ∀ st : Store, (∀ q ∈ qs, ∃ t, q.text = Prim.pStr t) →
      st.index = (st.cache.map record_key).toFinset →
      (fold_adds qs st).index = ((fold_adds qs st).cache.map record_key).toFinset := by
  induction qs with
  | nil => intro st _ hst; simpa [fold_adds] using hst
  | cons q rest ih =>
      intro st h hst
      obtain ⟨t, ht⟩ := h q (List.mem_cons_self q rest)
      have hstep : fold_adds (q :: rest) st =
          fold_adds rest
            { cache := st.cache ++ [asdict q],
              index := insert (pyStr q.group ++ "_" ++ py_trim t) st.index } := by
        simp [fold_adds, add_quote_mem_str q st t ht]
      rw [hstep]
      refine ih _ (fun q' hq' => h q' (List.mem_cons_of_mem _ hq')) ?_
      have hkey : pyStr q.group ++ "_" ++ py_trim t = record_key (asdict q) := by
        rw [record_key_asdict, ht]
        rfl
      show insert (pyStr q.group ++ "_" ++ py_trim t) st.index =
        ((st.cache ++ [asdict q]).map record_key).toFinset
      rw [hkey, hst]
      ext k
      simp [List.mem_append, or_comm]

/-- Quote fixture exhibiting a concatenated-key collision: isolation key
`"a"` with text `"b_c"` produces the same dedup key as isolation key
`"a_b"` with text `"c"`. -/
def c1_quote : Quote :=
  { id := Prim.pStr "1", qq := Prim.pStr "u", name := Prim.pStr "n",
    text := Prim.pStr "b_c", created_by := Prim.pStr "u",
    created_at := Prim.pInt 0, group := Prim.pStr "a" }

/-- C1 counterexample: after adding, to an empty store, the single quote
with isolation key `"a"` and text `"b_c"`, `check_exists("a_b", "c")`
returns `true` although no stored quote has isolation key `"a_b"` and
trimmed text `"c"` — a false positive from key concatenation. -/
theorem c1_counterexample :
    check_exists (fold_adds [c1_quote] empty_store) "a_b" "c" = true ∧
    has_matching_quote (fold_adds [c1_quote] empty_store) "a_b" "c" = false := by
  decide

/-- C1 (amended): after any finite sequence of `add_quote` operations on
str-texted quotes starting from the empty store, `check_exists(g, t)`
returns true iff some stored record's concatenated dedup key
`str(group) + "_" + strip(str(text))` equals the queried concatenation
`g + "_" + strip(t)`; distinct `(g, t)` pairs whose concatenations
coincide are conflated, and deletions can further drop a key another
stored duplicate still relies on. -/
theorem c1_check_exists_concat_key_iff (qs : List Quote)
    (h : ∀ q ∈ qs, ∃ t, q.text = Prim.pStr t) (g t : String) :
    check_exists (fold_adds qs empty_store) g t = true ↔
      ∃ r ∈ (fold_adds qs empty_store).cache,
        record_key r = g ++ "_" ++ py_trim t := by
  have hinv := fold_adds_index_eq qs empty_store h (by simp [empty_store])
  unfold check_exists
  rw [decide_eq_true_eq, hinv]
  simp only [List.mem_toFinset, List.mem_map]

/-- C1 witness: the amended theorem applied to the one-add sequence of the
collision fixture and the query `("a", "b_c")`. -/
theorem c1_witness :
    check_exists (fold_adds [c1_quote] empty_store) "a" "b_c" = true ↔
      ∃ r ∈ (fold_adds [c1_quote] empty_store).cache,
        record_key r = "a" ++ "_" ++ py_trim "b_c" :=
  c1_check_exists_concat_key_iff [c1_quote]
    (by
      intro q hq
      rw [List.mem_singleton] at hq
      subst hq
      exact ⟨"b_c", rfl⟩)
    "a" "b_c"

lemma mem_foldl_rebuild_step (rs : List RecordDict) :
    ∀ (acc : Finset String) (key : String),
      key ∈ List.foldl rebuild_step acc rs ↔
        key ∈ acc ∨
          ∃ r ∈ rs,
            pyStr (dictGetD r "group" (Prim.pStr "")) ≠ "" ∧
            py_trim (pyStr (dictGetD r "text" (Prim.pStr ""))) ≠ "" ∧
            key = record_key r := by
  induction rs with
  | nil => intro acc key; simp
  | cons r rest ih =>
      intro acc key
      rw [List.foldl_cons]
      have hkr : pyStr (dictGetD r "group" (Prim.pStr "")) ++ "_" ++
          py_trim (pyStr (dictGetD r "text" (Prim.pStr ""))) = record_key r := rfl
      by_cases hg : pyStr (dictGetD r "group" (Prim.pStr "")) ≠ "" ∧
          py_trim (pyStr (dictGetD r "text" (Prim.pStr ""))) ≠ ""
      · rw [show rebuild_step acc r =
            insert (record_key r) acc by simp [rebuild_step, hg, hkr], ih]
        constructor
        · rintro (h | ⟨r', hr', h1, h2, h3⟩)
          · rcases Finset.mem_insert.mp h with h' | h'
            · exact Or.inr ⟨r, List.mem_cons_self r rest, hg.1, hg.2, h'⟩
            · exact Or.inl h'
          · exact Or.inr ⟨r', List.mem_cons_of_mem _ hr', h1, h2, h3⟩
        · rintro (h | ⟨r', hr', h1, h2, h3⟩)
          · exact Or.inl (Finset.mem_insert_of_mem h)
          · rcases List.mem_cons.mp hr' with h' | h'
            · subst h'
              exact Or.inl (h3 ▸ Finset.mem_insert_self _ _)
            · exact Or.inr ⟨r', h', h1, h2, h3⟩
      · rw [show rebuild_step acc r = acc by simp [rebuild_step, hkr]; tauto, ih]
        constructor
        · rintro (h | ⟨r', hr', h1, h2, h3⟩)
          · exact Or.inl h
          · exact Or.inr ⟨r', List.mem_cons_of_mem _ hr', h1, h2, h3⟩
        · rintro (h | ⟨r', hr', h1, h2, h3⟩)
          · exact Or.inl h
          · rcases List.mem_cons.mp hr' with h' | h'
            · subst h'
              exact absurd ⟨h1, h2⟩ hg
            · exact Or.inr ⟨r', h', h1, h2, h3⟩

/-- Quote fixture with an empty isolation key used by the C5
counterexample. -/
def c5_quote : Quote :=
  { id := Prim.pStr "2", qq := Prim.pStr "u", name := Prim.pStr "n",
    text := Prim.pStr "hi", created_by := Prim.pStr "u",
    created_at := Prim.pInt 0, group := Prim.pStr "" }

/-- C5 counterexample: `add_quote` of a quote with empty isolation key
does index it — `check_exists("", "hi")` becomes true — while the
load-time rebuild of the same single-record cache indexes nothing, so the
two paths are not identical and the empty-key quote participates in
indexing on the add path. -/
theorem c5_counterexample :
    check_exists ((add_quote_mem c5_quote empty_store).getD empty_store) "" "hi" = true ∧
    rebuild_index [asdict c5_quote] = ∅ := by
  decide

/-- C5 (amended): the index rebuilt at load time contains a key only for
a record whose isolation key string and trimmed text are both non-empty
(and the key is that record's composite key); `add_quote`, however,
inserts its quote's key unconditionally, so a quote with an empty
isolation key or empty trimmed text is indexed by the add path until the
next load-time rebuild drops it. -/
theorem c5_rebuild_guards_add_does_not :
    (∀ (rs : List RecordDict) (key : String), key ∈ rebuild_index rs →
       ∃ r ∈ rs,
         pyStr (dictGetD r "group" (Prim.pStr "")) ≠ "" ∧
         py_trim (pyStr (dictGetD r "text" (Prim.pStr ""))) ≠ "" ∧
         key = record_key r) ∧
    (∀ (q : Quote) (st : Store) (t : String), q.text = Prim.pStr t →
       ∃ st', add_quote_mem q st = some st' ∧
         (pyStr q.group ++ "_" ++ py_trim t) ∈ st'.index) := by
  constructor
  · intro rs key hkey
    have := (mem_foldl_rebuild_step rs ∅ key).mp hkey
    simpa using this
  · intro q st t ht
    refine ⟨_, add_quote_mem_str q st t ht, ?_⟩
    exact Finset.mem_insert_self _ _

/-- C5 witness: the rebuild direction applied to a concrete one-record
cache and its key, and the add direction applied to the C1 fixture. -/
theorem c5_witness :
    (∃ r ∈ [asdict c1_quote],
       pyStr (dictGetD r "group" (Prim.pStr "")) ≠ "" ∧
       py_trim (pyStr (dictGetD r "text" (Prim.pStr ""))) ≠ "" ∧
       "a_b_c" = record_key r) ∧
    (∃ st', add_quote_mem c5_quote empty_store = some st' ∧
       (pyStr c5_quote.group ++ "_" ++ py_trim "hi") ∈ st'.index) :=
  ⟨c5_rebuild_guards_add_does_not.1 [asdict c1_quote] "a_b_c" (by decide),
   c5_rebuild_guards_add_does_not.2 c5_quote empty_store "hi" rfl⟩

/-- The `created_at` of a quote read as a number (0 on a non-int value);
used to state order properties over query results. -/
def created_at_num (q : Quote) : Int :=
  match q.created_at with
  | Prim.pInt n => n
  | _ => 0

/-- Record fixture: author `"u"`, group `"g"`, `created_at = 5`, stored
first. -/
def c3_r5 : RecordDict :=
  asdict { id := Prim.pStr "r5", qq := Prim.pStr "u", name := Prim.pStr "n",
           text := Prim.pStr "x1", created_by := Prim.pStr "u",
           created_at := Prim.pInt 5, group := Prim.pStr "g" }

/-- Record fixture: author `"u"`, group `"g"`, `created_at = 1`, stored
second (a backfilled older timestamp). -/
def c3_r1 : RecordDict :=
  asdict { id := Prim.pStr "r1", qq := Prim.pStr "u", name := Prim.pStr "n",
           text := Prim.pStr "x2", created_by := Prim.pStr "u",
           created_at := Prim.pInt 1, group := Prim.pStr "g" }

/-- C3 counterexample: with the cache holding the `created_at = 5` record
before the `created_at = 1` record, `get_user_quotes("g", "u")` returns
them in store order — timestamps `[5, 1]` — which is not ascending, so the
result is not sorted by `created_at`. -/
theorem c3_counterexample :
    (get_user_quotes (some "g") "u" [c3_r5, c3_r1]).map
        (fun l => l.map created_at_num) = some [5, 1] ∧
    ¬ List.Sorted (· ≤ ·) [(5 : Int), 1] := by
  constructor
  · decide
  · decide

/-- C3 (amended): `get_user_quotes(g, a)` returns every stored record
matching both predicates exactly once, converted in store (insertion)
order — it performs no sort, so the list is ascending by `created_at` only
when the matching records already are. -/
theorem c3_get_user_quotes_store_order (g : Option String) (qq : String)
    (cache : List RecordDict) :
    get_user_quotes g qq cache = convert_all (cache.filter (user_pred g qq)) := by
  induction cache with
  | nil => rfl
  | cons r rest ih =>
      cases g with
      | none =>
          by_cases hq : pyStr (dictGetD r "qq" Prim.pNull) = qq
          · simp [get_user_quotes, user_pred, hq, ih, convert_all]
          · simp [get_user_quotes, user_pred, hq, ih]
      | some gid =>
          by_cases hgr : pyStr (dictGetD r "group" Prim.pNull) = gid
          · by_cases hq : pyStr (dictGetD r "qq" Prim.pNull) = qq
            · simp [get_user_quotes, user_pred, hgr, hq, ih, convert_all]
            · simp [get_user_quotes, user_pred, hgr, hq, ih]
          · simp [get_user_quotes, user_pred, hgr, ih]

/-- Quote fixture whose id was built by the caller, the way `src/main.py`
builds it (millisecond timestamp plus random token). -/
def c4_quote : Quote :=
  { id := Prim.pStr (make_quote_id 1234 "ab"), qq := Prim.pStr "u",
    name := Prim.pStr "n", text := Prim.pStr "hello",
    created_by := Prim.pStr "u", created_at := Prim.pInt 0,
    group := Prim.pStr "g" }

/-- C4 counterexample: `add_quote` stores the record with exactly the id
the caller put into the submitted `Quote` (`"1234_ab"` here) — the store
assigns no id of its own, the caller supplies every field including `id`,
and the operation returns `None` rather than the stored record. -/
theorem c4_counterexample :
    (add_quote_mem c4_quote empty_store).map
        (fun st => st.cache.map fun r => dictGetD r "id" Prim.pNull) =
      some [Prim.pStr "1234_ab"] := by
  decide

/-- C4 (amended): the submitting command handler in `src/main.py`
generates the id (`str(int(time()*1000)) + "_" + secrets.token_hex(2)`)
and supplies the complete `Quote`; the store's `add_quote` appends the
record unchanged, so the stored id list is the old one extended by exactly
the caller-supplied id, and nothing is returned. -/
theorem c4_add_preserves_caller_id (q : Quote) (st : Store) (t : String)
    (h : q.text = Prim.pStr t) :
    ∃ st', add_quote_mem q st = some st' ∧
      st'.cache.map (fun r => dictGetD r "id" Prim.pNull) =
        st.cache.map (fun r => dictGetD r "id" Prim.pNull) ++ [q.id] := by
  refine ⟨_, add_quote_mem_str q st t h, ?_⟩
  simp only [List.map_append, List.map_cons, List.map_nil]
  rfl

/-- C4 witness: the amended theorem applied to the fixture quote with the
`main.py`-style id on the empty store. -/
theorem c4_witness :
    ∃ st', add_quote_mem c4_quote empty_store = some st' ∧
      st'.cache.map (fun r => dictGetD r "id" Prim.pNull) =
        empty_store.cache.map (fun r => dictGetD r "id" Prim.pNull) ++ [c4_quote.id] :=
  c4_add_preserves_caller_id c4_quote empty_store "hello" rfl

/-- C6: converting a stored record to a `Quote` ignores unknown fields
(prepending a binding for any unrecognized key leaves the conversion
result unchanged), and a record carrying only the seven required fields
converts successfully, the optional `ai_reason` defaulting to `None`. -/
theorem c6_safe_to_quote_tolerant :
    (∀ (d : RecordDict) (k : String) (v : Prim), k ∉ quote_field_names →
       safe_to_quote ((k, v) :: d) = safe_to_quote d) ∧
    (∀ i q n t cb ca g : Prim,
       safe_to_quote [("id", i), ("qq", q), ("name", n), ("text", t),
           ("created_by", cb), ("created_at", ca), ("group", g)] =
         some { id := i, qq := q, name := n, text := t, created_by := cb,
                created_at := ca, group := g, ai_reason := Prim.pNull }) := by
  constructor
  · intro d k v hk
    simp only [quote_field_names, List.mem_cons, List.not_mem_nil, or_false,
      not_or] at hk
    obtain ⟨h1, h2, h3, h4, h5, h6, h7, h8⟩ := hk
    have e1 : (("id" : String) == k) = false := beq_eq_false_iff_ne.mpr (Ne.symm h1)
    have e2 : (("qq" : String) == k) = false := beq_eq_false_iff_ne.mpr (Ne.symm h2)
    have e3 : (("name" : String) == k) = false := beq_eq_false_iff_ne.mpr (Ne.symm h3)
    have e4 : (("text" : String) == k) = false := beq_eq_false_iff_ne.mpr (Ne.symm h4)
    have e5 : (("created_by" : String) == k) = false :=
      beq_eq_false_iff_ne.mpr (Ne.symm h5)
    have e6 : (("created_at" : String) == k) = false :=
      beq_eq_false_iff_ne.mpr (Ne.symm h6)
    have e7 : (("group" : String) == k) = false := beq_eq_false_iff_ne.mpr (Ne.symm h7)
    have e8 : (("ai_reason" : String) == k) = false :=
      beq_eq_false_iff_ne.mpr (Ne.symm h8)
    simp [safe_to_quote, List.lookup, e1, e2, e3, e4, e5, e6, e7, e8]
  · intro i q n t cb ca g
    rfl

/-- C6 witness: the theorem applied to an unrecognized key on the empty
record and to a concrete all-string record. -/
theorem c6_witness :
    safe_to_quote [("extra_field", Prim.pInt 3)] = safe_to_quote [] ∧
    safe_to_quote [("id", Prim.pStr "i"), ("qq", Prim.pStr "u"),
        ("name", Prim.pStr "n"), ("text", Prim.pStr "t"),
        ("created_by", Prim.pStr "c"), ("created_at", Prim.pInt 7),
        ("group", Prim.pStr "g")] =
      some { id := Prim.pStr "i", qq := Prim.pStr "u", name := Prim.pStr "n",
             text := Prim.pStr "t", created_by := Prim.pStr "c",
             created_at := Prim.pInt 7, group := Prim.pStr "g",
             ai_reason := Prim.pNull } :=
  ⟨c6_safe_to_quote_tolerant.1 [] "extra_field" (Prim.pInt 3) (by decide),
   c6_safe_to_quote_tolerant.2 (Prim.pStr "i") (Prim.pStr "u") (Prim.pStr "n")
     (Prim.pStr "t") (Prim.pStr "c") (Prim.pInt 7) (Prim.pStr "g")⟩

lemma records_of_items_objs (rs : List RecordDict) :
    records_of_items (rs.map Item.obj) = some rs := by
  induction rs with
  | nil => rfl
  | cons r rest ih => simp [records_of_items, ih]

/-- C8 counterexample: a backing file holding `{"quotes": 7}` makes
startup raise — `_load` happily returns `7`, and the `for` loop of
`_rebuild_index` in `__init__` then raises `TypeError` on the
non-iterable cache instead of falling back to the empty list. -/
theorem c8_counterexample :
    init_store (FileContent.json
      (TopVal.objT [("quotes", QuotesVal.scalar (Prim.pInt 7))])) = none := by
  decide

/-- C8 (amended): startup is fail-soft for a missing file, unparsable
contents, a non-object top level, or an object without a `"quotes"` key —
each initializes the empty store without raising — and a `"quotes"` list
of record objects loads as the cache with the index rebuilt from it; but
when `"quotes"` holds a non-iterable value (or iterable elements without
`.get`), the index rebuild inside `__init__` raises. -/
theorem c8_load_fail_soft :
    init_store FileContent.missing = some empty_store ∧
    init_store FileContent.garbage = some empty_store ∧
    init_store (FileContent.json TopVal.nonObj) = some empty_store ∧
    (∀ kvs : List (String × QuotesVal), List.lookup "quotes" kvs = none →
       init_store (FileContent.json (TopVal.objT kvs)) = some empty_store) ∧
    (∀ (kvs : List (String × QuotesVal)) (rs : List RecordDict),
       List.lookup "quotes" kvs = some (QuotesVal.arr (rs.map Item.obj)) →
       init_store (FileContent.json (TopVal.objT kvs)) =
         some { cache := rs, index := rebuild_index rs }) := by
  refine ⟨rfl, rfl, rfl, ?_, ?_⟩
  · intro kvs h
    simp [init_store, py_load, h, iter_elems, records_of_items]
    rfl
  · intro kvs rs h
    simp [init_store, py_load, h, iter_elems, records_of_items_objs]

/-- C8 witness: the amended theorem's object cases applied to an object
without a `"quotes"` key and to a one-record `"quotes"` list. -/
theorem c8_witness :
    init_store (FileContent.json (TopVal.objT [("other", QuotesVal.arr [])])) =
      some empty_store ∧
    init_store (FileContent.json
        (TopVal.objT [("quotes", QuotesVal.arr [Item.obj c3_r5])])) =
      some { cache := [c3_r5], index := rebuild_index [c3_r5] } :=
  ⟨c8_load_fail_soft.2.2.2.1 [("other", QuotesVal.arr [])] rfl,
   c8_load_fail_soft.2.2.2.2 [("quotes", QuotesVal.arr [Item.obj c3_r5])] [c3_r5] rfl⟩

lemma safe_to_quote_asdict (q : Quote) : safe_to_quote (asdict q) = some q := rfl

lemma init_store_serialize (cache : List RecordDict) :
    init_store (serialize_store cache) =
      some { cache := cache, index := rebuild_index cache } := by
  simp [init_store, serialize_store, py_load, iter_elems, records_of_items_objs]

/-- C9: a record stored by `add_quote` survives the persist/load round
trip unchanged — a successful save writes the whole post-add cache, a
reload from that file yields exactly that cache (the new record last),
and converting the stored record back gives the original quote with every
field, the id included, preserved. -/
theorem c9_roundtrip (q : Quote) (st : Store) (t : String)
    (h : q.text = Prim.pStr t) (disk : Disk) :
    ∃ st' d, add_quote q st disk SaveOutcome.ok = some (st', d, false) ∧
      ∃ st2, init_store d.file = some st2 ∧
        st2.cache = st.cache ++ [asdict q] ∧
        st2.cache.getLast? = some (asdict q) ∧
        safe_to_quote (asdict q) = some q := by
  refine ⟨{ cache := st.cache ++ [asdict q],
            index := insert (pyStr q.group ++ "_" ++ py_trim t) st.index },
          { file := serialize_store (st.cache ++ [asdict q]) }, ?_, ?_⟩
  · simp [add_quote, add_quote_mem_str q st t h, py_save]
  · refine ⟨_, init_store_serialize (st.cache ++ [asdict q]), rfl, ?_,
      safe_to_quote_asdict q⟩
    simp

/-- C9 witness: the round trip run for the fixture quote added to the
empty store over a missing backing file. -/
theorem c9_witness :
    ∃ st' d,
      add_quote c4_quote empty_store { file := FileContent.missing } SaveOutcome.ok =
        some (st', d, false) ∧
      ∃ st2, init_store d.file = some st2 ∧
        st2.cache = empty_store.cache ++ [asdict c4_quote] ∧
        st2.cache.getLast? = some (asdict c4_quote) ∧
        safe_to_quote (asdict c4_quote) = some c4_quote :=
  c9_roundtrip c4_quote empty_store "hello" rfl { file := FileContent.missing }

/-- C7: `_save` writes the serialization of the entire in-memory record
list and atomically replaces the target on success, leaving no temp file;
when the write or the replace raises, the target file keeps its previous
contents, the stray temp file is removed, and the exception propagates —
`add_quote` and `delete_quote` re-raise exactly when their `_save`
raised. -/
theorem c7_save_atomic_and_propagates :
    (∀ (cache : List RecordDict) (disk : Disk),
       py_save cache disk SaveOutcome.ok =
         { disk := { file := serialize_store cache },
           tmp_remains := false, raised := false }) ∧
    (∀ (cache : List RecordDict) (disk : Disk) (o : SaveOutcome),
       o ≠ SaveOutcome.ok →
       py_save cache disk o = { disk := disk, tmp_remains := false, raised := true }) ∧
    (∀ (q : Quote) (st : Store) (disk : Disk) (o : SaveOutcome),
       (add_quote q st disk o).map (fun r => r.2.2) =
         (add_quote_mem q st).map (fun st' => (py_save st'.cache disk o).raised)) ∧
    (∀ (qid : String) (st : Store) (disk : Disk) (o : SaveOutcome)
       (td : RecordDict), st.cache.find? (del_pred qid) = some td →
       (delete_quote qid st disk o).2.2.1 =
         (py_save (st.cache.filter fun r => !(del_pred qid r)) disk o).raised) := by
  refine ⟨fun _ _ => rfl, ?_, ?_, ?_⟩
  · intro cache disk o ho
    cases o with
    | ok => exact absurd rfl ho
    | failWrite => rfl
    | failReplace => rfl
  · intro q st disk o
    cases hmem : add_quote_mem q st with
    | none => simp [add_quote, hmem]
    | some st' => simp [add_quote, hmem]
  · intro qid st disk o td h
    simp [delete_quote, h]

/-- C7 witness: the failure branch applied to a write failure, and the
delete propagation applied to a store holding the fixture record. -/
theorem c7_witness :
    py_save [c3_r5] { file := FileContent.missing } SaveOutcome.failWrite =
      { disk := { file := FileContent.missing },
        tmp_remains := false, raised := true } ∧
    (delete_quote "r5" { cache := [c3_r5], index := rebuild_index [c3_r5] }
        { file := FileContent.missing } SaveOutcome.failWrite).2.2.1 =
      (py_save ([c3_r5].filter fun r => !(del_pred "r5" r))
        { file := FileContent.missing } SaveOutcome.failWrite).raised :=
  ⟨c7_save_atomic_and_propagates.2.1 [c3_r5] { file := FileContent.missing }
      SaveOutcome.failWrite (by decide),
   c7_save_atomic_and_propagates.2.2.2 "r5"
      { cache := [c3_r5], index := rebuild_index [c3_r5] }
      { file := FileContent.missing } SaveOutcome.failWrite c3_r5 (by decide)⟩

/-- C10: when `_save` raises inside a mutating operation, the in-memory
mutation sticks with no rollback while the file keeps its pre-operation
contents and the error propagates: a failed `add_quote` leaves the new
record in the cache and its key in the index — so `check_exists` reports
it present though never persisted — and a failed `delete_quote` leaves
the record removed from memory with the old file intact. -/
theorem c10_failed_save_keeps_memory (q : Quote) (st : Store) (t : String)
    (h : q.text = Prim.pStr t) (disk : Disk) :
    (∃ st', add_quote q st disk SaveOutcome.failWrite = some (st', disk, true) ∧
       st'.cache = st.cache ++ [asdict q] ∧
       check_exists st' (pyStr q.group) t = true) ∧
    (∀ (qid : String) (td : RecordDict),
       st.cache.find? (del_pred qid) = some td →
       delete_quote qid st disk SaveOutcome.failWrite =
         ({ cache := st.cache.filter fun r => !(del_pred qid r),
            index := if record_key td ∈ st.index
                     then st.index.erase (record_key td) else st.index },
          disk, true, true)) := by
  constructor
  · refine ⟨{ cache := st.cache ++ [asdict q],
              index := insert (pyStr q.group ++ "_" ++ py_trim t) st.index },
      ?_, rfl, ?_⟩
    · simp [add_quote, add_quote_mem_str q st t h, py_save]
    · simp [check_exists]
  · intro qid td hf
    simp [delete_quote, hf, py_save, record_key]

/-- C10 witness: a failed add of the fixture quote on the empty store
over a missing file. -/
theorem c10_witness :
    (∃ st', add_quote c1_quote empty_store { file := FileContent.missing }
        SaveOutcome.failWrite = some (st', { file := FileContent.missing }, true) ∧
       st'.cache = empty_store.cache ++ [asdict c1_quote] ∧
       check_exists st' (pyStr c1_quote.group) "b_c" = true) ∧
    (∀ (qid : String) (td : RecordDict),
       empty_store.cache.find? (del_pred qid) = some td →
       delete_quote qid empty_store { file := FileContent.missing }
           SaveOutcome.failWrite =
         ({ cache := empty_store.cache.filter fun r => !(del_pred qid r),
            index := if record_key td ∈ empty_store.index
                     then empty_store.index.erase (record_key td)
                     else empty_store.index },
          { file := FileContent.missing }, true, true)) :=
  c10_failed_save_keeps_memory c1_quote empty_store "b_c" rfl
    { file := FileContent.missing }

lemma cons_eraseIdx_perm (l : List RecordDict) :
    ∀ (j : Nat) (h : j < l.length), (l.get ⟨j, h⟩ :: l.eraseIdx j).Perm l := by
  induction l with
  | nil =>
      intro j h
      simp at h
  | cons a rest ih =>
      intro j h
      cases j with
      | zero => simp [List.eraseIdx]
      | succ j =>
          have h' : j < rest.length := by
            simpa [Nat.succ_lt_succ_iff] using h
          exact (List.Perm.swap a (rest.get ⟨j, h'⟩) (rest.eraseIdx j)).trans
            ((ih j h').cons a)

lemma sample_with_length (k : Nat) :
    ∀ (seed : List Nat) (l : List RecordDict), k ≤ l.length →
      (sample_with seed l k).length = k := by
  induction k with
  | zero =>
      intro seed l _
      cases l <;> simp [sample_with]
  | succ k ih =>
      intro seed l hk
      match l with
      | [] => simp at hk
      | a :: rest =>
          have hj : (seed.headD 0) % (a :: rest).length < (a :: rest).length :=
            Nat.mod_lt _ (Nat.succ_pos rest.length)
          have hlen : ((a :: rest).eraseIdx ((seed.headD 0) % (a :: rest).length)).length + 1 =
              (a :: rest).length := List.length_eraseIdx_add_one hj
          have hk' : k ≤ ((a :: rest).eraseIdx ((seed.headD 0) % (a :: rest).length)).length := by
            omega
          have hrec := ih seed.tail
            ((a :: rest).eraseIdx ((seed.headD 0) % (a :: rest).length)) hk'
          simp only [sample_with, List.length_cons]
          simp only [List.headD_eq_head?, List.length_cons] at hrec ⊢
          simp [hrec]

lemma sample_with_multiset_le (k : Nat) :
    ∀ (seed : List Nat) (l : List RecordDict),
      ((sample_with seed l k : List RecordDict) : Multiset RecordDict) ≤ (l : Multiset RecordDict) := by
  induction k with
  | zero =>
      intro seed l
      simp [sample_with]
  | succ k ih =>
      intro seed l
      match l with
      | [] => simp [sample_with]
      | a :: rest =>
          have hj : (seed.headD 0) % (a :: rest).length < (a :: rest).length :=
            Nat.mod_lt _ (Nat.succ_pos rest.length)
          have hperm :
              (((a :: rest).get ⟨(seed.headD 0) % (a :: rest).length, hj⟩ ::
                 (a :: rest).eraseIdx ((seed.headD 0) % (a :: rest).length)) :
                  Multiset RecordDict) = ((a :: rest : List RecordDict) : Multiset RecordDict) :=
            Multiset.coe_eq_coe.mpr (cons_eraseIdx_perm (a :: rest) _ hj)
          calc ((sample_with seed (a :: rest) (k + 1) : List RecordDict) : Multiset RecordDict)
              = ((a :: rest).get ⟨(seed.headD 0) % (a :: rest).length, hj⟩) ::ₘ
                  ((sample_with seed.tail
                    ((a :: rest).eraseIdx ((seed.headD 0) % (a :: rest).length)) k :
                      List RecordDict) : Multiset RecordDict) := by
                simp [sample_with]
            _ ≤ ((a :: rest).get ⟨(seed.headD 0) % (a :: rest).length, hj⟩) ::ₘ
                  (((a :: rest).eraseIdx ((seed.headD 0) % (a :: rest).length) :
                      List RecordDict) : Multiset RecordDict) :=
                Multiset.cons_le_cons _ (ih seed.tail _)
            _ = ((a :: rest : List RecordDict) : Multiset RecordDict) := hperm

lemma convert_all_isSome (xs : List RecordDict)
    (h : ∀ r ∈ xs, (safe_to_quote r).isSome) : ∃ l, convert_all xs = some l := by
  induction xs with
  | nil => exact ⟨[], rfl⟩
  | cons r rest ih =>
      obtain ⟨q, hq⟩ := Option.isSome_iff_exists.mp (h r (List.mem_cons_self r rest))
      obtain ⟨l, hl⟩ := ih fun r' hr' => h r' (List.mem_cons_of_mem _ hr')
      exact ⟨q :: l, by simp [convert_all, hq, hl]⟩

/-- Record fixture in group `"g2"` used by the C2 counterexample and
witness. -/
def c2_record : RecordDict :=
  asdict { id := Prim.pStr "r2", qq := Prim.pStr "v", name := Prim.pStr "n",
           text := Prim.pStr "y", created_by := Prim.pStr "v",
           created_at := Prim.pInt 2, group := Prim.pStr "g2" }

/-- C2 counterexample: with one stored quote in group `"g2"`,
`get_random_batch("g2", -1)` raises (`random.sample` rejects the negative
sample size `min(1, -1) = -1`) instead of returning the empty list the
claim promises for `N <= 0`. -/
theorem c2_counterexample :
    get_random_batch (some "g2") (-1) [] [c2_record] = none := by
  decide

/-- C2 (amended): for `count ≥ 0` and well-formed stored records,
`get_random_batch(g, count)` returns, without raising, the conversion of
`min(count, |filtered set|)` records drawn without replacement from the
records matching the isolation filter (the whole filtered set when it is
smaller than `count`, the empty list when it is empty or `count = 0`);
but when `count < 0` and the filtered set is non-empty, `random.sample`
raises `ValueError`. -/
theorem c2_get_random_batch_spec (g : Option String) (count : Int)
    (seed : List Nat) (cache : List RecordDict)
    (hc : 0 ≤ count) (hwf : ∀ r ∈ cache, (safe_to_quote r).isSome) :
    ∃ (l : List Quote) (chosen : List RecordDict),
      get_random_batch g count seed cache = some l ∧
      chosen.length = min count.toNat (cache.filter (group_pred g)).length ∧
      ((chosen : List RecordDict) : Multiset RecordDict) ≤
        ((cache.filter (group_pred g) : List RecordDict) : Multiset RecordDict) ∧
      convert_all chosen = some l := by
  by_cases hemp : (cache.filter (group_pred g)).isEmpty
  · refine ⟨[], [], ?_, ?_, ?_, rfl⟩
    · simp [get_random_batch, hemp]
    · rw [List.isEmpty_iff] at hemp
      simp [hemp]
    · simp
  · set candidates := cache.filter (group_pred g) with hcand
    have hlen0 : 0 < candidates.length := by
      rcases candidates with _ | ⟨a, rest⟩
      · simp at hemp
      · simp
    have hmin0 : 0 ≤ min (candidates.length : Int) count :=
      le_min (by positivity) hc
    have hk : (min (candidates.length : Int) count).toNat =
        min count.toNat candidates.length := by
      rcases le_total (candidates.length : Int) count with hle | hle
      · rw [min_eq_left hle]
        omega
      · rw [min_eq_right hle]
        omega
    have hkle : (min (candidates.length : Int) count).toNat ≤ candidates.length := by
      omega
    set chosen := sample_with seed candidates (min (candidates.length : Int) count).toNat
      with hchosen
    have hsub : ((chosen : List RecordDict) : Multiset RecordDict) ≤
        ((candidates : List RecordDict) : Multiset RecordDict) :=
      sample_with_multiset_le _ seed candidates
    have hmem : ∀ r ∈ chosen, (safe_to_quote r).isSome := by
      intro r hr
      have : r ∈ candidates := by
        have hsub' := Multiset.subset_of_le hsub
        simpa using hsub' (by simpa using hr)
      exact hwf r (List.mem_of_mem_filter this)
    obtain ⟨l, hl⟩ := convert_all_isSome chosen hmem
    refine ⟨l, chosen, ?_, ?_, hsub, hl⟩
    · rw [get_random_batch]
      rw [← hcand]
      rw [if_neg (by simpa [List.isEmpty_iff] using hemp)]
      rw [if_neg (not_lt.mpr hmin0)]
      exact hl
    · rw [hchosen, sample_with_length _ seed candidates hkle, hk]

/-- C2 witness: the amended theorem applied to a two-record cache, group
filter `"g"` and `count = 5` (larger than the one matching record). -/
theorem c2_witness :
    ∃ (l : List Quote) (chosen : List RecordDict),
      get_random_batch (some "g") 5 [] [c3_r5, c2_record] = some l ∧
      chosen.length =
        min (5 : Int).toNat (([c3_r5, c2_record].filter (group_pred (some "g"))).length) ∧
      ((chosen : List RecordDict) : Multiset RecordDict) ≤
        (([c3_r5, c2_record].filter (group_pred (some "g")) : List RecordDict) :
          Multiset RecordDict) ∧
      convert_all chosen = some l :=
  c2_get_random_batch_spec (some "g") 5 [] [c3_r5, c2_record] (by decide)
    (by decide)
